import Mathlib

/-!
Verification of the retrieval and chat core of the starlight video-analysis
backend: the query router and relevance scoring of the search service, the
cosine-similarity vector search and deterministic fallback embedding of the
embedding service, and the conversation orchestration (function-calling loop,
message persistence, retrieval-failure tolerance) of the chat service.

The TypeScript sources are embedded shallowly: JavaScript strings become
`List Char`, JavaScript numbers become `ℚ` where the code only adds,
multiplies and compares, and `ℝ` where `Math.sqrt` is involved; thrown
exceptions become `Except` values; the Firestore document store becomes an
explicit list (for the embeddings collection) or an explicit map
(for the chats collection) passed through the functions.
-/

namespace StrUtil

/-- ASCII model of JavaScript `toLowerCase` on a single character. -/
def lowerChar (c : Char) : Char :=
  if 'A' ≤ c ∧ c ≤ 'Z' then Char.ofNat (c.toNat + 32) else c

/-- Model of JavaScript `toLowerCase` on a string, as a list of characters. -/
def lowerList (s : List Char) : List Char :=
  s.map lowerChar

/-- The characters the JavaScript regex `\s` matches in the queries at hand. -/
def isWsChar (c : Char) : Bool :=
  c = ' ' ∨ c = '\t' ∨ c = '\n' ∨ c = '\r'

/-- Boolean test that `p` is a prefix of `l`. -/
def isPrefixList : List Char → List Char → Bool
  | [], _ => true
  | _ :: _, [] => false
  | a :: as, b :: bs => a = b && isPrefixList as bs

/-- Model of JavaScript `hay.includes(needle)` (substring containment). -/
def containsSub (needle : List Char) : List Char → Bool
  | [] => isPrefixList needle []
  | c :: rest => isPrefixList needle (c :: rest) || containsSub needle rest

/-- Worker for the model of JavaScript `str.split(/\s+/)`: `inSep` records
whether the scan is currently inside a whitespace run, `cur` is the piece
accumulated so far in reverse. A piece is emitted when a run starts and the
pending piece (possibly empty) is emitted at the end of the string. -/
def jsSplitGo (inSep : Bool) (cur : List Char) : List Char → List (List Char)
  | [] => [cur.reverse]
  | c :: rest =>
    if isWsChar c then
      if inSep then jsSplitGo true [] rest
      else cur.reverse :: jsSplitGo true [] rest
    else jsSplitGo false (c :: cur) rest

/-- Model of JavaScript `str.split(/\s+/)`: split at maximal whitespace runs,
keeping the (possibly empty) pieces before the first run and after the last
run, so that splitting `""` gives `[""]` and splitting `" "` gives
`["", ""]`. -/
def jsSplitWs (s : List Char) : List (List Char) :=
  jsSplitGo false [] s

end StrUtil

namespace SearchService

open StrUtil

/-- The three routing strategies returned by `analyzeQuery`. -/
inductive Strategy
  | semantic
  | filtered
  | general
deriving DecidableEq, Repr

/-- The fixed semantic-intent keyword list of `analyzeQuery`
(src/unnamed/part_016). -/
def semanticKeywords : List String :=
  ["like", "similar", "showing", "with", "about", "featuring",
   "scene", "video", "moment", "part", "feel", "mood", "vibe",
   "happy", "sad", "energetic", "calm", "exciting", "emotional"]

/-- The structured-filter token list of `analyzeQuery` (src/unnamed/part_016). -/
def filterKeywords : List String :=
  ["exact", "id:", "campaign:", "product:"]

/-- `queryLower.includes(kw)` for some structured-filter token `kw`. -/
def hasFilterKeyword (query : String) : Bool :=
  filterKeywords.any fun kw => containsSub kw.toList (lowerList query.toList)

/-- `queryLower.includes(kw)` for some semantic-intent keyword `kw`. -/
def hasSemanticKeyword (query : String) : Bool :=
  semanticKeywords.any fun kw => containsSub kw.toList (lowerList query.toList)

/-- `query.split(/\s+/).length`, the whitespace-token count of the query. -/
def tokenCount (query : String) : ℕ :=
  (jsSplitWs query.toList).length

/-- Embedding of `SearchService.analyzeQuery` (src/unnamed/part_016, lines
80-109): returns the strategy together with the `useVectorSearch` flag. -/
def analyzeQuery (query : String) : Strategy × Bool :=
  if hasFilterKeyword query then (Strategy.filtered, false)
  else if hasSemanticKeyword query || decide (3 < tokenCount query) then
    (Strategy.semantic, true)
  else (Strategy.general, true)

/-- The structured analysis fields of a scene that relevance scoring reads
(`analysis` of a `Scene`, src/unnamed/part_009 types). -/
structure SceneAnalysis where
  visualElements : List String
  mood : String
  product : Option String
  confidence : ℚ
deriving DecidableEq

/-- The scene fields read by `calculateRelevanceScore`; `vectorSimilarity` is
the optional similarity attached to a scene by the vector-search path. -/
structure SceneDoc where
  description : String
  transcript : String
  analysis : SceneAnalysis
  vectorSimilarity : Option ℚ
deriving DecidableEq

/-- Embedding of `SearchService.calculateRelevanceScore`
(src/unnamed/part_016, lines 385-414): the vector similarity when present,
otherwise sequential accumulation of lexical bonuses capped at 1. -/
def calculateRelevanceScore (scene : SceneDoc) (query : String) : ℚ :=
  match scene.vectorSimilarity with
  | some v => v
  | none =>
    let queryLower := lowerList query.toList
    let base := scene.analysis.confidence * (1 / 2)
    let s1 :=
      if containsSub queryLower (lowerList scene.description.toList) then
        base + 1 / 5
      else base
    let s2 :=
      if containsSub queryLower (lowerList scene.transcript.toList) then
        s1 + 3 / 20
      else s1
    let queryWords := jsSplitWs queryLower
    let s3 := queryWords.foldl
      (fun acc w =>
        if scene.analysis.visualElements.any
            (fun el => containsSub w (lowerList el.toList)) then
          acc + 1 / 10
        else acc) s2
    min s3 1

/-- Whether the lowercased query occurs in the scene's description
(the first lexical bonus condition of `calculateRelevanceScore`). -/
def descriptionHit (scene : SceneDoc) (query : String) : Bool :=
  containsSub (lowerList query.toList) (lowerList scene.description.toList)

/-- Whether the lowercased query occurs in the scene's transcript
(the second lexical bonus condition of `calculateRelevanceScore`). -/
def transcriptHit (scene : SceneDoc) (query : String) : Bool :=
  containsSub (lowerList query.toList) (lowerList scene.transcript.toList)

/-- How many whitespace-separated words of the lowercased query occur in some
visual element of the scene (counted per word, as the loop of
`calculateRelevanceScore` does). -/
def visualHitCount (scene : SceneDoc) (query : String) : ℕ :=
  (jsSplitWs (lowerList query.toList)).countP
    (fun w => scene.analysis.visualElements.any
      (fun el => containsSub w (lowerList el.toList)))

/-- The lexical fallback score as the specification words it: half the
confidence, plus 1/5 for a description hit, plus 3/20 for a transcript hit,
plus 1/10 per query word matching a visual element, before the cap at 1. -/
def lexicalScore (scene : SceneDoc) (query : String) : ℚ :=
  scene.analysis.confidence * (1 / 2)
    + (if descriptionHit scene query then 1 / 5 else 0)
    + (if transcriptHit scene query then 3 / 20 else 0)
    + (visualHitCount scene query : ℚ) * (1 / 10)

end SearchService

namespace EmbeddingService

open StrUtil

/-- JavaScript `ToInt32`: reduce an integer into the signed 32-bit range, as
the bitwise operators of `simpleHash` do. -/
def toInt32 (z : ℤ) : ℤ :=
  let r := z % 4294967296
  if r < 2147483648 then r else r - 4294967296

/-- Embedding of `EmbeddingService.simpleHash` (src/unnamed/part_015 and
part_014): iterate `hash = ((hash shifted left by 5) - hash) + charCode` in
32-bit integer arithmetic, then take the absolute value. -/
def simpleHash (word : List Char) : ℕ :=
  (word.foldl (fun hash c => toInt32 (toInt32 (hash * 32) - hash + c.toNat)) 0).natAbs

/-- The fixed embedding dimensionality of the fallback embedding. -/
def dimension : ℕ := 768

/-- One word's contribution in `generateFallbackEmbedding`: spread the word's
hash over 10 positions (step 97, modulo the dimension) and accumulate the
position-decayed weight `1 / (wordIndex + 1)` at each. -/
def accumWord (emb : ℕ → ℚ) (idx : ℕ) (word : List Char) : ℕ → ℚ :=
  (List.range 10).foldl
    (fun e i =>
      let pos := (simpleHash word + i * 97) % dimension
      fun n => if n = pos then e n + 1 / ((idx : ℚ) + 1) else e n)
    emb

/-- The `forEach` callback of `generateFallbackEmbedding` as a step function
on one enumerated word. -/
def accumStep (e : ℕ → ℚ) (p : ℕ × List Char) : ℕ → ℚ :=
  accumWord e p.1 p.2

/-- The fallback embedding before normalization, as a function from position
to accumulated weight: lowercase, split on whitespace, and accumulate every
word's hashed contributions over the zero vector. -/
def rawFallback (text : String) : ℕ → ℚ :=
  (jsSplitWs (lowerList text.toList)).enum.foldl accumStep (fun _ => 0)

/-- Sum of squares of a list of reals (the squared L2 norm; the code takes
`Math.sqrt` of this to obtain the magnitude). -/
def sumSq (l : List ℝ) : ℝ :=
  (l.map (fun v => v * v)).sum

/-- Dot product of two real vectors (the index loop of `cosineSimilarity`,
meaningful when the lengths agree). -/
def dotProd (a b : List ℝ) : ℝ :=
  (List.zipWith (fun x y => x * y) a b).sum

/-- Embedding of `EmbeddingService.generateFallbackEmbedding`
(src/unnamed/part_015 lines 191-211, part_014 lines 86-106): accumulate the
hashed word weights into a 768-entry vector and divide by the magnitude when
it is positive, entrywise, else produce zeros. -/
noncomputable def generateFallbackEmbedding (text : String) : List ℝ :=
  let raw : List ℝ := (List.range dimension).map (fun n => ((rawFallback text n : ℚ) : ℝ))
  let magnitude := Real.sqrt (sumSq raw)
  raw.map (fun v => if magnitude > 0 then v / magnitude else 0)

/-- The typed errors of the embedding service: a dimension mismatch raised by
`cosineSimilarity`, and the wrapper error raised by `searchSimilarEmbeddings`
around any failure during the scan. -/
inductive EmbErr
  | dimensionMismatch
  | searchFailed
deriving DecidableEq, Repr

/-- Embedding of `EmbeddingService.cosineSimilarity` (src/unnamed/part_014
lines 247-270, part_015 lines 356-379): error on mismatched lengths, 0 when
either magnitude is zero, otherwise the dot product over the product of
magnitudes. -/
noncomputable def cosineSimilarity (a b : List ℝ) : Except EmbErr ℝ :=
  if a.length ≠ b.length then Except.error EmbErr.dimensionMismatch
  else
    let dot := dotProd a b
    let magnitudeA := Real.sqrt (sumSq a)
    let magnitudeB := Real.sqrt (sumSq b)
    if magnitudeA = 0 ∨ magnitudeB = 0 then Except.ok 0
    else Except.ok (dot / (magnitudeA * magnitudeB))

/-- The denormalized metadata stored with each embedding
(`VectorMetadata`, src/unnamed/part_009). -/
structure VectorMetadata where
  videoId : String
  campaignId : String
  sceneNumber : ℕ
  startTime : ℚ
  endTime : ℚ
  description : String
  transcript : String
  visualElements : List String
  product : Option String
  mood : String

/-- One document of the `embeddings` collection as `searchSimilarEmbeddings`
reads it: scene id, stored vector, and metadata. -/
structure StoredEmbedding where
  sceneId : String
  embedding : List ℝ
  metadata : VectorMetadata

/-- One entry of the result list of `searchSimilarEmbeddings`. -/
structure SimilarityResult where
  sceneId : String
  similarity : ℝ
  metadata : VectorMetadata

/-- The Firestore pre-filter of `searchSimilarEmbeddings`: restrict to
documents whose `metadata.campaignId` equals the filter when one is given. -/
def filterByCampaign (campaignId : Option String) (store : List StoredEmbedding) :
    List StoredEmbedding :=
  match campaignId with
  | none => store
  | some cid => store.filter (fun d => d.metadata.campaignId == cid)

/-- The scan of `searchSimilarEmbeddings` over the fetched documents: compute
the cosine similarity against each, propagating a thrown error, and keep the
entries reaching `minSimilarity`, in store order. -/
noncomputable def collectSimilar (queryEmbedding : List ℝ) (minSimilarity : ℝ) :
    List StoredEmbedding → Except EmbErr (List SimilarityResult)
  | [] => Except.ok []
  | d :: ds =>
    match cosineSimilarity queryEmbedding d.embedding with
    | Except.error e => Except.error e
    | Except.ok s =>
      match collectSimilar queryEmbedding minSimilarity ds with
      | Except.error e => Except.error e
      | Except.ok rest =>
        Except.ok (if minSimilarity ≤ s then ⟨d.sceneId, s, d.metadata⟩ :: rest else rest)

/-- The descending comparison `(a, b) => b.similarity - a.similarity` the code
passes to `Array.sort`, as a relation. -/
def simGE (a b : SimilarityResult) : Prop :=
  b.similarity ≤ a.similarity

noncomputable instance : DecidableRel simGE :=
  fun a b => Real.decidableLE b.similarity a.similarity

instance : IsTotal SimilarityResult simGE :=
  ⟨fun a b => le_total b.similarity a.similarity⟩

instance : IsTrans SimilarityResult simGE :=
  ⟨fun _ _ _ hab hbc => le_trans hbc hab⟩

/-- The descending stable sort of the result list (JavaScript `sort` with the
comparator above). -/
noncomputable def sortBySimilarityDesc (l : List SimilarityResult) :
    List SimilarityResult :=
  List.insertionSort simGE l

/-- Embedding of `EmbeddingService.searchSimilarEmbeddings`
(src/unnamed/part_015, lines 384-458): pre-filter by campaign, scan computing
cosine similarities and keeping those at or above `minSimilarity`, sort
descending by similarity, truncate to `limit`; any error during the scan is
rethrown as the wrapper failure. -/
noncomputable def searchSimilarEmbeddings (queryEmbedding : List ℝ) (limit : ℕ)
    (campaignId : Option String) (minSimilarity : ℝ)
    (store : List StoredEmbedding) : Except EmbErr (List SimilarityResult) :=
  match collectSimilar queryEmbedding minSimilarity
      (filterByCampaign campaignId store) with
  | Except.error _ => Except.error EmbErr.searchFailed
  | Except.ok results => Except.ok ((sortBySimilarityDesc results).take limit)

/-- The campaign pre-filter as a predicate on one stored document. -/
def inCampaign (campaignId : Option String) (d : StoredEmbedding) : Prop :=
  ∀ c, campaignId = some c → d.metadata.campaignId = c

end EmbeddingService

namespace ChatService

/-- The typed failures of a chat turn, one per `throw` site of
`chat.service.ts`: missing conversation, uninitialized Vertex AI, a missing
response candidate, a candidate with neither function call nor text, the
iteration bound, and failures of function execution or generation. -/
inductive ChatErr
  | conversationNotFound
  | vertexNotInitialized
  | noCandidate
  | noContent
  | maxIterationsReached
  | executionFailed
  | generationFailed
deriving DecidableEq, Repr

/-- The failure of the scene search underlying `retrieveContext`
(`queryScenes` rethrows as a search failure). -/
inductive SearchErr
  | searchFailed
deriving DecidableEq, Repr

/-- One entry of the `contents` array sent to the model: a role-tagged text
message, a function call echoed back as a model turn, or a function
response. -/
inductive Content
  | msg (role : String) (text : String)
  | fnCall (name : String) (args : String)
  | fnResponse (name : String) (result : String)
deriving DecidableEq, Repr

/-- One round-trip answer of the generative model: the first candidate is
missing, or the candidate carries a function call part, a text part, or
neither. -/
inductive ModelResp
  | noCandidate
  | fnCall (name : String) (args : String)
  | text (s : String)
  | empty
deriving DecidableEq, Repr

/-- The iteration bound of the function-calling loop
(`const maxIterations = 5`). -/
def maxIterations : ℕ := 5

/-- One search result as `retrieveContext` consumes it: only the `scene`
field is read (`searchResults.map(result => result.scene)`); scenes
themselves are opaque to the chat service. -/
structure SearchResultC (σ : Type) where
  scene : σ
  score : ℚ
deriving DecidableEq

/-- The retrieved-context snapshot stored on an assistant message
(`context.scenes` plus the always-empty `videos`). -/
structure MsgContext (σ : Type) where
  scenes : List σ
  videos : List String
deriving DecidableEq

/-- One chat message: id, role (`user` or `assistant`), content, and the
optional context snapshot (assistant messages only). -/
structure ChatMessage (σ : Type) where
  id : String
  role : String
  content : String
  context : Option (MsgContext σ)
deriving DecidableEq

/-- One conversation document of the `chats` collection. -/
structure Conversation (σ : Type) where
  id : String
  campaignId : Option String
  messages : List (ChatMessage σ)
deriving DecidableEq

/-- The conversation store (Firestore `chats` collection or the in-memory
map), as a map from conversation id to document. -/
def ConvStore (σ : Type) : Type :=
  String → Option (Conversation σ)

/-- Embedding of `ChatService.retrieveContext` (chat.service.ts lines
371-395): query scenes with the campaign scope and limit 10, map to the
scene field, and return the empty list if the search throws. -/
def retrieveContext {σ : Type}
    (queryScenes : String → Option String → ℕ → Except SearchErr (List (SearchResultC σ)))
    (message : String) (campaignId : Option String) : List σ :=
  match queryScenes message campaignId 10 with
  | Except.ok searchResults => searchResults.map (fun r => r.scene)
  | Except.error _ => []

/-- The `while` loop of `generateResponse` (chat.service.ts lines 454-544):
`fuel` is the number of loop iterations still allowed, `iteration` the count
of model round trips performed so far. Each pass invokes the model once; a
function call is executed and both turns are appended to `contents`; a text
part ends the loop; fuel exhaustion returns the initial empty
`finalResponse`. The returned number is the final value of `iteration`,
that is, the number of model round trips performed. -/
def fcLoop (model : List Content → ModelResp)
    (execFn : String → String → Except ChatErr String) :
    ℕ → ℕ → List Content → ℕ × Except ChatErr String
  | 0, iteration, _ => (iteration, Except.ok "")
  | fuel + 1, iteration, contents =>
    match model contents with
    | ModelResp.noCandidate => (iteration + 1, Except.error ChatErr.noCandidate)
    | ModelResp.fnCall name args =>
      match execFn name args with
      | Except.error e => (iteration + 1, Except.error e)
      | Except.ok result =>
        fcLoop model execFn fuel (iteration + 1)
          (contents ++ [Content.fnCall name args, Content.fnResponse name result])
    | ModelResp.text s => (iteration + 1, Except.ok s)
    | ModelResp.empty => (iteration + 1, Except.error ChatErr.noContent)

/-- The `contents` array `generateResponse` builds before the loop: the last
5 history messages as role-tagged parts, then the new user message. -/
def buildContents {σ : Type} (conversationHistory : List (ChatMessage σ))
    (message : String) : List Content :=
  (conversationHistory.drop (conversationHistory.length - 5)).map
      (fun m => Content.msg m.role m.content)
    ++ [Content.msg "user" message]

/-- Embedding of `ChatService.generateResponse` (chat.service.ts lines
400-563): fails immediately when Vertex AI is unavailable; otherwise runs
the function-calling loop with `maxIterations` fuel and, mirroring
`iteration >= maxIterations && !finalResponse`, converts an empty final
response after a full loop into the max-iterations error. Returns the round
trips performed together with the outcome. The retrieved `context` is
accepted but, as in the source, not fed to the model. -/
def generateResponse {σ : Type} (available : Bool)
    (model : List Content → ModelResp)
    (execFn : String → String → Except ChatErr String)
    (message : String) (context : List σ)
    (conversationHistory : List (ChatMessage σ)) : ℕ × Except ChatErr String :=
  if available then
    match fcLoop model execFn maxIterations 0
        (buildContents conversationHistory message) with
    | (iteration, Except.ok s) =>
      if maxIterations ≤ iteration ∧ s = "" then
        (iteration, Except.error ChatErr.maxIterationsReached)
      else (iteration, Except.ok s)
    | (iteration, Except.error e) => (iteration, Except.error e)
  else (0, Except.error ChatErr.vertexNotInitialized)

/-- Embedding of `ChatService.sendMessage` (chat.service.ts lines 568-652):
load the conversation (error if absent), build the user message, retrieve
context, generate the response — any thrown error is logged and rethrown
with the store untouched — and only on success append the user and
assistant messages and persist the updated conversation. `uid1`, `uid2`
stand for the generated UUIDs. -/
def sendMessage {σ : Type}
    (queryScenes : String → Option String → ℕ → Except SearchErr (List (SearchResultC σ)))
    (genResp : String → List σ → List (ChatMessage σ) → Except ChatErr String)
    (uid1 uid2 : String) (store : ConvStore σ)
    (conversationId userMessage : String) :
    ConvStore σ × Except ChatErr (ChatMessage σ) :=
  match store conversationId with
  | none => (store, Except.error ChatErr.conversationNotFound)
  | some conversation =>
    let userMsg : ChatMessage σ := ⟨uid1, "user", userMessage, none⟩
    let context := retrieveContext queryScenes userMessage conversation.campaignId
    match genResp userMessage context conversation.messages with
    | Except.error e => (store, Except.error e)
    | Except.ok responseText =>
      let assistantMsg : ChatMessage σ :=
        ⟨uid2, "assistant", responseText, some ⟨context, []⟩⟩
      let updated : Conversation σ :=
        { conversation with
            messages := conversation.messages ++ [userMsg, assistantMsg] }
      (fun cid => if cid = conversationId then some updated else store cid,
       Except.ok assistantMsg)

end ChatService

namespace StrUtil

theorem jsSplitGo_ne_nil :
    ∀ (l : List Char) (inSep : Bool) (cur : List Char),
      jsSplitGo inSep cur l ≠ [] := by
  intro l
  induction l with
  | nil => intro inSep cur; simp [jsSplitGo]
  | cons c rest ih =>
    intro inSep cur
    rw [jsSplitGo]
    by_cases hc : isWsChar c
    · cases inSep with
      | true => simpa [hc] using ih true []
      | false => simp [hc]
    · simpa [hc] using ih false (c :: cur)

/-- The split of any string is nonempty (JavaScript `split` never returns
an empty array). -/
theorem jsSplitWs_ne_nil (s : List Char) : jsSplitWs s ≠ [] :=
  jsSplitGo_ne_nil s false []

end StrUtil

namespace Claims

open StrUtil SearchService

theorem foldl_if_add_count {α : Type} (c : ℚ) (p : α → Bool) :
    ∀ (l : List α) (acc : ℚ),
      l.foldl (fun a w => if p w then a + c else a) acc
        = acc + c * (l.countP p : ℚ) := by
  intro l
  induction l with
  | nil => intro acc; simp
  | cons x xs ih =>
    intro acc
    rw [List.foldl_cons]
    by_cases hx : p x
    · rw [if_pos hx, ih, List.countP_cons_of_pos _ _ hx]
      push_cast
      ring
    · rw [if_neg hx, ih, List.countP_cons_of_neg _ _ hx]

/-- C3: the query router `analyzeQuery` is a pure function classifying every
query by priority rules: a structured-filter token (`id:`, `campaign:`,
`product:`, `exact`) in the lowercased query yields `filtered` with vector
search off; otherwise a semantic-intent keyword or more than 3
whitespace-separated tokens yields `semantic` with vector search on;
otherwise `general` with vector search on. Fixture table:
`campaign:123` is filtered, `happy moments with people smiling` is semantic,
`car` is general, `exact id:xyz` is filtered. -/
theorem c3_analyzeQuery_classification : ∀ q : String,
    (hasFilterKeyword q = true → analyzeQuery q = (Strategy.filtered, false)) ∧
    (hasFilterKeyword q = false →
      (hasSemanticKeyword q = true ∨ 3 < tokenCount q) →
      analyzeQuery q = (Strategy.semantic, true)) ∧
    (hasFilterKeyword q = false → hasSemanticKeyword q = false →
      tokenCount q ≤ 3 → analyzeQuery q = (Strategy.general, true)) ∧
    analyzeQuery "campaign:123" = (Strategy.filtered, false) ∧
    analyzeQuery "happy moments with people smiling" = (Strategy.semantic, true) ∧
    analyzeQuery "car" = (Strategy.general, true) ∧
    analyzeQuery "exact id:xyz" = (Strategy.filtered, false) := by
  intro q
  refine ⟨?_, ?_, ?_, by decide, by decide, by decide, by decide⟩
  · intro h
    simp [analyzeQuery, h]
  · intro hf hs
    have : (hasSemanticKeyword q || decide (3 < tokenCount q)) = true := by
      rcases hs with h | h
      · simp [h]
      · simp [h]
    simp [analyzeQuery, hf, this]
  · intro hf hs ht
    simp [analyzeQuery, hf, hs, Nat.not_lt.mpr ht]

/-- Witness for C3: the router hypotheses hold and are discharged at the
concrete queries `campaign:123` and `car`. -/
theorem c3_analyzeQuery_classification_witness :
    analyzeQuery "campaign:123" = (Strategy.filtered, false) ∧
    analyzeQuery "car" = (Strategy.general, true) :=
  ⟨(c3_analyzeQuery_classification "campaign:123").1 (by decide),
   (c3_analyzeQuery_classification "car").2.2.1 (by decide) (by decide)
     (by decide)⟩

/-- C4: the enrichment score equals the scene's vector similarity when one is
attached; otherwise it equals the lexical fallback score (half the
confidence, plus 1/5 for a description hit, plus 3/20 for a transcript hit,
plus 1/10 per query word matching a visual element) capped at 1, and with
confidence in the unit interval it lies in the unit interval. -/
theorem c4_calculateRelevanceScore_spec (scene : SceneDoc) (query : String) :
    (∀ v, scene.vectorSimilarity = some v →
      calculateRelevanceScore scene query = v) ∧
    (scene.vectorSimilarity = none →
      calculateRelevanceScore scene query = min (lexicalScore scene query) 1 ∧
      (0 ≤ scene.analysis.confidence → scene.analysis.confidence ≤ 1 →
        0 ≤ calculateRelevanceScore scene query ∧
          calculateRelevanceScore scene query ≤ 1)) := by
  constructor
  · intro v hv
    simp [calculateRelevanceScore, hv]
  · intro hnone
    have heq : calculateRelevanceScore scene query
        = min (lexicalScore scene query) 1 := by
      simp only [calculateRelevanceScore, hnone]
      rw [foldl_if_add_count]
      unfold lexicalScore descriptionHit transcriptHit visualHitCount
      by_cases h1 :
          containsSub (lowerList query.toList)
            (lowerList scene.description.toList) <;>
        by_cases h2 :
          containsSub (lowerList query.toList)
            (lowerList scene.transcript.toList) <;>
      · simp only [h1, h2, if_true, if_false, Bool.false_eq_true]
        ring_nf
    refine ⟨heq, fun hc0 hc1 => ⟨?_, ?_⟩⟩
    · rw [heq]
      have hlex : 0 ≤ lexicalScore scene query := by
        unfold lexicalScore
        have t1 : (0 : ℚ) ≤ scene.analysis.confidence * (1 / 2) :=
          mul_nonneg hc0 (by norm_num)
        have t2 : (0 : ℚ) ≤ if descriptionHit scene query then 1 / 5 else 0 := by
          split <;> norm_num
        have t3 : (0 : ℚ) ≤ if transcriptHit scene query then 3 / 20 else 0 := by
          split <;> norm_num
        have t4 : (0 : ℚ) ≤ (visualHitCount scene query : ℚ) * (1 / 10) := by
          positivity
        linarith
      exact le_min hlex (by norm_num)
    · rw [heq]
      exact min_le_right _ _

/-- Witness for C4: both branches discharged at concrete scenes, one carrying
a vector similarity of 7/10 and one scored lexically. -/
theorem c4_calculateRelevanceScore_spec_witness :
    calculateRelevanceScore
      ⟨"d", "t", ⟨[], "m", none, 1 / 2⟩, some (7 / 10)⟩ "q" = 7 / 10 ∧
    calculateRelevanceScore
        ⟨"a red car", "hello", ⟨["car"], "energetic", none, 1 / 2⟩, none⟩ "car"
      = min
          (lexicalScore
            ⟨"a red car", "hello", ⟨["car"], "energetic", none, 1 / 2⟩, none⟩
            "car") 1 ∧
    0 ≤ calculateRelevanceScore
          ⟨"a red car", "hello", ⟨["car"], "energetic", none, 1 / 2⟩, none⟩
          "car" := by
  refine ⟨(c4_calculateRelevanceScore_spec _ "q").1 _ rfl, ?_, ?_⟩
  · exact ((c4_calculateRelevanceScore_spec _ "car").2 rfl).1
  · exact (((c4_calculateRelevanceScore_spec _ "car").2 rfl).2 (by norm_num)
      (by norm_num)).1

open EmbeddingService

theorem sumSq_nonneg (l : List ℝ) : 0 ≤ sumSq l := by
  refine List.sum_nonneg ?_
  intro x hx
  obtain ⟨v, _, rfl⟩ := List.mem_map.mp hx
  exact mul_self_nonneg v

theorem sqrt_sumSq_eq_zero_iff (l : List ℝ) :
    Real.sqrt (sumSq l) = 0 ↔ sumSq l = 0 := by
  rw [Real.sqrt_eq_zero']
  exact ⟨fun h => le_antisymm h (sumSq_nonneg l), fun h => le_of_eq h⟩

/-- C6: `cosineSimilarity` errors with a dimension mismatch exactly when the
two vectors have different lengths; with equal lengths it returns 0 when
either magnitude is zero, and otherwise the dot product divided by the
product of the magnitudes. -/
theorem c6_cosineSimilarity_spec (a b : List ℝ) :
    (cosineSimilarity a b = Except.error EmbErr.dimensionMismatch ↔
      a.length ≠ b.length) ∧
    (a.length = b.length → sumSq a = 0 ∨ sumSq b = 0 →
      cosineSimilarity a b = Except.ok 0) ∧
    (a.length = b.length → sumSq a ≠ 0 → sumSq b ≠ 0 →
      cosineSimilarity a b = Except.ok
        (dotProd a b / (Real.sqrt (sumSq a) * Real.sqrt (sumSq b)))) := by
  refine ⟨?_, ?_, ?_⟩
  · constructor
    · intro hco
      by_contra hlen
      by_cases hm : Real.sqrt (sumSq a) = 0 ∨ Real.sqrt (sumSq b) = 0 <;>
        simp [cosineSimilarity, hlen, hm] at hco
    · intro hne
      simp [cosineSimilarity, hne]
  · intro hlen hzero
    have hm : Real.sqrt (sumSq a) = 0 ∨ Real.sqrt (sumSq b) = 0 := by
      rcases hzero with h | h
      · exact Or.inl ((sqrt_sumSq_eq_zero_iff a).mpr h)
      · exact Or.inr ((sqrt_sumSq_eq_zero_iff b).mpr h)
    simp [cosineSimilarity, hlen, hm]
  · intro hlen ha hb
    have hm : ¬(Real.sqrt (sumSq a) = 0 ∨ Real.sqrt (sumSq b) = 0) := by
      rintro (h | h)
      · exact ha ((sqrt_sumSq_eq_zero_iff a).mp h)
      · exact hb ((sqrt_sumSq_eq_zero_iff b).mp h)
    simp [cosineSimilarity, hlen, hm]

/-- Witness for C6: the zero-magnitude branch at `[0]` against `[1]`, and the
mismatch branch at `[1]` against `[1, 2]`. -/
theorem c6_cosineSimilarity_spec_witness :
    cosineSimilarity [(0 : ℝ)] [1] = Except.ok 0 ∧
    cosineSimilarity [(1 : ℝ)] [1, 2] = Except.error EmbErr.dimensionMismatch :=
  ⟨(c6_cosineSimilarity_spec [0] [1]).2.1 rfl
      (Or.inl (by norm_num [sumSq])),
   (c6_cosineSimilarity_spec [1] [1, 2]).1.mpr (by norm_num)⟩

theorem foldl_pointwise_le {α : Type} (f : (ℕ → ℚ) → α → (ℕ → ℚ))
    (hf : ∀ e x n, e n ≤ f e x n) :
    ∀ (l : List α) (e : ℕ → ℚ) (n), e n ≤ (l.foldl f e) n := by
  intro l
  induction l with
  | nil => intro e n; simp
  | cons x xs ih =>
    intro e n
    exact le_trans (hf e x n) (ih (f e x) n)

theorem step_pointwise_le (idx : ℕ) (word : List Char) :
    ∀ (e : ℕ → ℚ) (i : ℕ) (n : ℕ),
      e n ≤ (fun m =>
        if m = (simpleHash word + i * 97) % dimension then
          e m + 1 / ((idx : ℚ) + 1)
        else e m) n := by
  intro e i n
  dsimp only
  split
  · have : (0 : ℚ) ≤ 1 / ((idx : ℚ) + 1) := by positivity
    linarith
  · exact le_rfl

theorem accumWord_le (idx : ℕ) (word : List Char) :
    ∀ (e : ℕ → ℚ) (n), e n ≤ accumWord e idx word n := by
  intro e n
  exact foldl_pointwise_le _ (step_pointwise_le idx word) (List.range 10) e n

theorem accumWord_head (idx : ℕ) (word : List Char) (e : ℕ → ℚ) :
    e (simpleHash word % dimension) + 1 / ((idx : ℚ) + 1)
      ≤ accumWord e idx word (simpleHash word % dimension) := by
  unfold accumWord
  rw [show List.range 10 = 0 :: [1, 2, 3, 4, 5, 6, 7, 8, 9] from rfl,
    List.foldl_cons]
  refine le_trans ?_
    (foldl_pointwise_le _ (step_pointwise_le idx word)
      [1, 2, 3, 4, 5, 6, 7, 8, 9] _ _)
  dsimp only
  rw [if_pos (by simp)]

set_option maxRecDepth 16000 in
theorem rawFallback_pos (text : String) :
    ∃ p, p < dimension ∧ 0 < rawFallback text p := by
  have hwords := jsSplitWs_ne_nil (lowerList text.toList)
  set words := jsSplitWs (lowerList text.toList) with hw
  have henum : words.enum ≠ [] := by
    intro h
    apply hwords
    have := congrArg List.length h
    rw [List.enum_length] at this
    exact List.length_eq_zero.mp this
  obtain ⟨p0, rest, hcons⟩ := List.exists_cons_of_ne_nil henum
  have hdim : 0 < dimension := by norm_num [dimension]
  refine ⟨simpleHash p0.2 % dimension, Nat.mod_lt _ hdim, ?_⟩
  unfold rawFallback
  rw [← hw, hcons, List.foldl_cons]
  have h1 : (0 : ℚ) + 1 / ((p0.1 : ℚ) + 1)
      ≤ accumStep (fun _ => 0) p0 (simpleHash p0.2 % dimension) :=
    accumWord_head p0.1 p0.2 (fun _ => 0)
  have hstep : ∀ (e : ℕ → ℚ) (x : ℕ × List Char) (n : ℕ),
      e n ≤ accumStep e x n :=
    fun e x n => accumWord_le x.1 x.2 e n
  have h2 := foldl_pointwise_le accumStep hstep rest
    (accumStep (fun _ => 0) p0) (simpleHash p0.2 % dimension)
  have hpos : (0 : ℚ) < 1 / ((p0.1 : ℚ) + 1) := by positivity
  calc (0 : ℚ) < 0 + 1 / ((p0.1 : ℚ) + 1) := by linarith
    _ ≤ _ := le_trans h1 h2

theorem sumSq_map_div (l : List ℝ) (m : ℝ) :
    sumSq (l.map (fun v => v / m)) = sumSq l / (m * m) := by
  induction l with
  | nil => simp [sumSq]
  | cons x xs ih =>
    simp only [List.map_cons, sumSq, List.sum_cons] at ih ⊢
    rw [ih]
    field_simp

theorem sumSq_pos_of_entry (text : String) :
    0 < sumSq ((List.range dimension).map
      (fun n => ((rawFallback text n : ℚ) : ℝ))) := by
  obtain ⟨p, hp, hpos⟩ := rawFallback_pos text
  set raw : List ℝ :=
    (List.range dimension).map (fun n => ((rawFallback text n : ℚ) : ℝ)) with hraw
  have hmem : ((rawFallback text p : ℚ) : ℝ) ∈ raw := by
    rw [hraw]
    exact List.mem_map.mpr ⟨p, List.mem_range.mpr hp, rfl⟩
  have hsq : ((rawFallback text p : ℚ) : ℝ) * ((rawFallback text p : ℚ) : ℝ)
      ∈ raw.map (fun v => v * v) :=
    List.mem_map.mpr ⟨_, hmem, rfl⟩
  have hle : ((rawFallback text p : ℚ) : ℝ) * ((rawFallback text p : ℚ) : ℝ)
      ≤ sumSq raw := by
    refine List.single_le_sum ?_ _ hsq
    intro x hx
    obtain ⟨v, _, rfl⟩ := List.mem_map.mp hx
    exact mul_self_nonneg v
  have hcast : (0 : ℝ) < ((rawFallback text p : ℚ) : ℝ) := by
    exact_mod_cast hpos
  nlinarith

/-- C7 counterexample: on the empty input the fallback embedding is not the
zero vector; its squared L2 norm is 1, because JavaScript splits the empty
string into one empty token, which is hashed like any other word. -/
theorem c7_counterexample :
    sumSq (generateFallbackEmbedding "") = 1 ∧
    generateFallbackEmbedding "" ≠ List.replicate dimension 0 := by
  have h1 : sumSq (generateFallbackEmbedding "") = 1 := by
    unfold generateFallbackEmbedding
    have hpos := sumSq_pos_of_entry ""
    set raw : List ℝ :=
      (List.range dimension).map (fun n => ((rawFallback "" n : ℚ) : ℝ))
    have hsqrt : 0 < Real.sqrt (sumSq raw) := Real.sqrt_pos.mpr hpos
    simp only [hsqrt, if_true]
    rw [sumSq_map_div, Real.mul_self_sqrt (le_of_lt hpos)]
    exact div_self (ne_of_gt hpos)
  refine ⟨h1, ?_⟩
  intro h
  rw [h] at h1
  have : sumSq (List.replicate dimension (0 : ℝ)) = 0 := by
    simp [sumSq, List.map_replicate]
  rw [this] at h1
  exact zero_ne_one h1

/-- C7 (amended): for every input text, including the empty string, the
fallback embedding has 768 entries and exact squared L2 norm 1 (so L2 norm
1); the zero-vector branch of the normalization is never taken because the
JavaScript split always yields at least one (possibly empty) token. -/
theorem c7_generateFallbackEmbedding_normalized (text : String) :
    (generateFallbackEmbedding text).length = dimension ∧
    sumSq (generateFallbackEmbedding text) = 1 := by
  constructor
  · simp [generateFallbackEmbedding]
  · unfold generateFallbackEmbedding
    have hpos := sumSq_pos_of_entry text
    set raw : List ℝ :=
      (List.range dimension).map (fun n => ((rawFallback text n : ℚ) : ℝ))
    have hsqrt : 0 < Real.sqrt (sumSq raw) := Real.sqrt_pos.mpr hpos
    simp only [hsqrt, if_true]
    rw [sumSq_map_div, Real.mul_self_sqrt (le_of_lt hpos)]
    exact div_self (ne_of_gt hpos)

theorem collectSimilar_sound (q : List ℝ) (m : ℝ) :
    ∀ (docs : List StoredEmbedding) (res : List SimilarityResult),
      collectSimilar q m docs = Except.ok res →
      ∀ r ∈ res, m ≤ r.similarity ∧
        ∃ d ∈ docs, r.sceneId = d.sceneId ∧ r.metadata = d.metadata ∧
          cosineSimilarity q d.embedding = Except.ok r.similarity := by
  intro docs
  induction docs with
  | nil =>
    intro res h r hr
    rw [collectSimilar] at h
    cases h
    simp at hr
  | cons d ds ih =>
    intro res h r hr
    rw [collectSimilar] at h
    cases hcos : cosineSimilarity q d.embedding with
    | error e => rw [hcos] at h; cases h
    | ok s =>
      rw [hcos] at h
      cases hrec : collectSimilar q m ds with
      | error e => rw [hrec] at h; cases h
      | ok rest =>
        rw [hrec] at h
        dsimp only at h
        by_cases hm : m ≤ s
        · rw [if_pos hm] at h
          cases h
          rcases List.mem_cons.mp hr with rfl | hr'
          · exact ⟨hm, d, List.mem_cons_self d ds, rfl, rfl, hcos⟩
          · obtain ⟨hms, d', hd', he⟩ := ih rest hrec r hr'
            exact ⟨hms, d', List.mem_cons_of_mem d hd', he⟩
        · rw [if_neg hm] at h
          cases h
          obtain ⟨hms, d', hd', he⟩ := ih _ hrec r hr
          exact ⟨hms, d', List.mem_cons_of_mem d hd', he⟩

theorem collectSimilar_complete (q : List ℝ) (m : ℝ) :
    ∀ (docs : List StoredEmbedding) (res : List SimilarityResult),
      collectSimilar q m docs = Except.ok res →
      ∀ d ∈ docs, ∀ s, cosineSimilarity q d.embedding = Except.ok s →
        m ≤ s →
        ∃ r ∈ res, r.sceneId = d.sceneId ∧ r.similarity = s ∧
          r.metadata = d.metadata := by
  intro docs
  induction docs with
  | nil =>
    intro res _ d hd
    simp at hd
  | cons d0 ds ih =>
    intro res h d hd s hs hms
    rw [collectSimilar] at h
    cases hcos : cosineSimilarity q d0.embedding with
    | error e => rw [hcos] at h; cases h
    | ok s0 =>
      rw [hcos] at h
      cases hrec : collectSimilar q m ds with
      | error e => rw [hrec] at h; cases h
      | ok rest =>
        rw [hrec] at h
        dsimp only at h
        rcases List.mem_cons.mp hd with rfl | hd'
        · have hss : s0 = s := by
            rw [hcos] at hs
            exact (Except.ok.inj hs)
          subst hss
          rw [if_pos hms] at h
          cases h
          exact ⟨⟨d.sceneId, s0, d.metadata⟩, List.mem_cons_self _ _, rfl, rfl, rfl⟩
        · obtain ⟨r, hr, hre⟩ := ih rest hrec d hd' s hs hms
          refine ⟨r, ?_, hre⟩
          by_cases hm0 : m ≤ s0
          · rw [if_pos hm0] at h
            cases h
            exact List.mem_cons_of_mem _ hr
          · rw [if_neg hm0] at h
            cases h
            exact hr

theorem mem_filterByCampaign (camp : Option String) (store : List StoredEmbedding)
    (d : StoredEmbedding) :
    d ∈ filterByCampaign camp store ↔ d ∈ store ∧ inCampaign camp d := by
  cases camp with
  | none => simp [filterByCampaign, inCampaign]
  | some c =>
    simp only [filterByCampaign, List.mem_filter, beq_iff_eq, inCampaign]
    constructor
    · rintro ⟨hd, he⟩
      exact ⟨hd, fun c' hc' => by cases hc'; exact he⟩
    · rintro ⟨hd, he⟩
      exact ⟨hd, he c rfl⟩

/-- C2: whenever the vector search succeeds, the returned list has at most
`limit` entries, its similarities are non-increasing, every entry comes from
a stored embedding passing the campaign filter with its cosine similarity
against the query at or above `minSimilarity`, and if fewer than `limit`
entries are returned then every such stored embedding appears in the
result. -/
theorem c2_searchSimilarEmbeddings_spec (q : List ℝ) (lim : ℕ)
    (camp : Option String) (minSim : ℝ) (store : List StoredEmbedding)
    (l : List SimilarityResult)
    (h : searchSimilarEmbeddings q lim camp minSim store = Except.ok l) :
    l.length ≤ lim ∧
    List.Pairwise simGE l ∧
    (∀ r ∈ l, minSim ≤ r.similarity ∧
      ∃ d ∈ store, inCampaign camp d ∧ r.sceneId = d.sceneId ∧
        r.metadata = d.metadata ∧
        cosineSimilarity q d.embedding = Except.ok r.similarity) ∧
    (l.length < lim →
      ∀ d ∈ store, inCampaign camp d →
        ∀ s, cosineSimilarity q d.embedding = Except.ok s → minSim ≤ s →
          ∃ r ∈ l, r.sceneId = d.sceneId ∧ r.similarity = s ∧
            r.metadata = d.metadata) := by
  rw [searchSimilarEmbeddings] at h
  cases hcol : collectSimilar q minSim (filterByCampaign camp store) with
  | error e => rw [hcol] at h; cases h
  | ok results =>
    rw [hcol] at h
    cases h
    refine ⟨List.length_take_le lim _, ?_, ?_, ?_⟩
    · exact List.Pairwise.sublist (List.take_sublist lim _)
        (List.sorted_insertionSort simGE results)
    · intro r hr
      have hr' : r ∈ sortBySimilarityDesc results :=
        (List.take_sublist lim _).mem hr
      have hrres : r ∈ results := by
        rw [sortBySimilarityDesc] at hr'
        exact (List.mem_insertionSort simGE).mp hr'
      obtain ⟨hms, d, hd, he⟩ :=
        collectSimilar_sound q minSim _ results hcol r hrres
      obtain ⟨hdstore, hdc⟩ := (mem_filterByCampaign camp store d).mp hd
      exact ⟨hms, d, hdstore, hdc, he⟩
    · intro hlt d hdstore hdc s hs hms
      have hd : d ∈ filterByCampaign camp store :=
        (mem_filterByCampaign camp store d).mpr ⟨hdstore, hdc⟩
      obtain ⟨r, hr, hre⟩ :=
        collectSimilar_complete q minSim _ results hcol d hd s hs hms
      have hlen : (sortBySimilarityDesc results).length ≤ lim := by
        by_contra hcon
        push_neg at hcon
        have := List.length_take lim (sortBySimilarityDesc results)
        omega
      have htake : (sortBySimilarityDesc results).take lim
          = sortBySimilarityDesc results := List.take_of_length_le hlen
      refine ⟨r, ?_, hre⟩
      rw [htake, sortBySimilarityDesc]
      exact (List.mem_insertionSort simGE).mpr hr

open ChatService

theorem fcLoop_always_fnCall (model : List Content → ModelResp)
    (execFn : String → String → Except ChatErr String)
    (hm : ∀ c, ∃ n a, model c = ModelResp.fnCall n a)
    (he : ∀ n a, ∃ r, execFn n a = Except.ok r) :
    ∀ (fuel iteration : ℕ) (contents : List Content),
      fcLoop model execFn fuel iteration contents
        = (iteration + fuel, Except.ok "") := by
  intro fuel
  induction fuel with
  | zero => intro iteration contents; simp [fcLoop]
  | succ f ih =>
    intro iteration contents
    obtain ⟨n, a, hmc⟩ := hm contents
    obtain ⟨r, her⟩ := he n a
    rw [fcLoop, hmc]
    dsimp only
    rw [her]
    dsimp only
    rw [ih]
    have harith : iteration + 1 + f = iteration + (f + 1) := by omega
    rw [harith]

theorem generateResponse_always_fnCall {σ : Type}
    (model : List Content → ModelResp)
    (execFn : String → String → Except ChatErr String)
    (hm : ∀ c, ∃ n a, model c = ModelResp.fnCall n a)
    (he : ∀ n a, ∃ r, execFn n a = Except.ok r) :
    ∀ (message : String) (context : List σ)
      (history : List (ChatMessage σ)),
      generateResponse true model execFn message context history
        = (5, Except.error ChatErr.maxIterationsReached) := by
  intro message context history
  rw [generateResponse]
  rw [fcLoop_always_fnCall model execFn hm he maxIterations 0
    (buildContents history message)]
  simp [maxIterations]

/-- C1: when the model requests a function call on every round trip (and
function execution succeeds), `generateResponse` performs exactly
`maxIterations = 5` model round trips and then fails with the
max-iterations error, and `sendMessage` on an existing conversation fails
with that same error rather than returning an answer. -/
theorem c1_maxIterations_bound {σ : Type}
    (model : List Content → ModelResp)
    (execFn : String → String → Except ChatErr String)
    (message : String) (context : List σ) (history : List (ChatMessage σ))
    (queryScenes : String → Option String → ℕ →
      Except SearchErr (List (SearchResultC σ)))
    (uid1 uid2 : String) (store : ConvStore σ) (conversationId : String)
    (conv : Conversation σ)
    (hm : ∀ c, ∃ n a, model c = ModelResp.fnCall n a)
    (he : ∀ n a, ∃ r, execFn n a = Except.ok r)
    (hconv : store conversationId = some conv) :
    generateResponse true model execFn message context history
      = (5, Except.error ChatErr.maxIterationsReached) ∧
    (sendMessage queryScenes
        (fun m c h => (generateResponse true model execFn m c h).2)
        uid1 uid2 store conversationId message).2
      = Except.error ChatErr.maxIterationsReached := by
  refine ⟨generateResponse_always_fnCall model execFn hm he message context
    history, ?_⟩
  have hgen := generateResponse_always_fnCall model execFn hm he message
    (retrieveContext queryScenes message conv.campaignId) conv.messages
  simp [sendMessage, hconv, hgen]

/-- Witness for C1: a model that always calls function `f` drives a concrete
conversation to the max-iterations failure after exactly 5 round trips. -/
theorem c1_maxIterations_bound_witness :
    generateResponse true (fun _ => ModelResp.fnCall "f" "x")
        (fun _ _ => Except.ok "r") "hi" ([] : List ℕ) []
      = (5, Except.error ChatErr.maxIterationsReached) ∧
    (sendMessage
        ((fun _ _ _ => Except.ok []) :
          String → Option String → ℕ → Except SearchErr (List (SearchResultC ℕ)))
        (fun m c h =>
          (generateResponse true (fun _ => ModelResp.fnCall "f" "x")
            (fun _ _ => Except.ok "r") m c h).2)
        "u1" "u2"
        (fun cid => if cid = "c1" then some ⟨"c1", none, []⟩ else none)
        "c1" "hi").2
      = Except.error ChatErr.maxIterationsReached :=
  c1_maxIterations_bound (fun _ => ModelResp.fnCall "f" "x")
    (fun _ _ => Except.ok "r") "hi" [] []
    (fun _ _ _ => Except.ok [])
    "u1" "u2" (fun cid => if cid = "c1" then some ⟨"c1", none, []⟩ else none)
    "c1" ⟨"c1", none, []⟩
    (fun _ => ⟨"f", "x", rfl⟩) (fun _ _ => ⟨"r", rfl⟩) (by decide)

/-- C5: a successful `sendMessage` returns the assistant message, and the
stored conversation grows by exactly the user message (with the given text)
followed by that assistant message, whose context scenes are exactly what
`retrieveContext` returned for the message under the conversation's
campaign scope. -/
theorem c5_sendMessage_appends {σ : Type}
    (queryScenes : String → Option String → ℕ →
      Except SearchErr (List (SearchResultC σ)))
    (genResp : String → List σ → List (ChatMessage σ) → Except ChatErr String)
    (uid1 uid2 : String) (store : ConvStore σ)
    (conversationId userMessage : String) (conv : Conversation σ) (txt : String)
    (hc : store conversationId = some conv)
    (hg : genResp userMessage
        (retrieveContext queryScenes userMessage conv.campaignId)
        conv.messages = Except.ok txt) :
    (sendMessage queryScenes genResp uid1 uid2 store conversationId
        userMessage).2
      = Except.ok (⟨uid2, "assistant", txt,
          some ⟨retrieveContext queryScenes userMessage conv.campaignId, []⟩⟩ :
          ChatMessage σ) ∧
    ∃ conv',
      (sendMessage queryScenes genResp uid1 uid2 store conversationId
          userMessage).1 conversationId = some conv' ∧
      conv'.messages = conv.messages ++
        [⟨uid1, "user", userMessage, none⟩,
         ⟨uid2, "assistant", txt,
          some ⟨retrieveContext queryScenes userMessage conv.campaignId, []⟩⟩] := by
  constructor
  · simp [sendMessage, hc, hg]
  · refine ⟨{ conv with messages := conv.messages ++
      [⟨uid1, "user", userMessage, none⟩,
       ⟨uid2, "assistant", txt,
        some ⟨retrieveContext queryScenes userMessage conv.campaignId, []⟩⟩] },
      ?_, rfl⟩
    simp [sendMessage, hc, hg]

/-- Witness for C5: a concrete one-conversation store with a constant
generator appends the expected user/assistant pair. -/
theorem c5_sendMessage_appends_witness :
    (sendMessage
        ((fun _ _ _ => Except.ok []) :
          String → Option String → ℕ → Except SearchErr (List (SearchResultC ℕ)))
        (fun _ _ _ => Except.ok "answer") "u1" "u2"
        (fun cid => if cid = "c1" then some ⟨"c1", none, []⟩ else none)
        "c1" "hello").2
      = Except.ok (⟨"u2", "assistant", "answer", some ⟨[], []⟩⟩ :
          ChatMessage ℕ) ∧
    ∃ conv',
      (sendMessage
          ((fun _ _ _ => Except.ok []) :
            String → Option String → ℕ → Except SearchErr (List (SearchResultC ℕ)))
          (fun _ _ _ => Except.ok "answer") "u1" "u2"
          (fun cid => if cid = "c1" then some ⟨"c1", none, []⟩ else none)
          "c1" "hello").1 "c1" = some conv' ∧
      conv'.messages = ([] : List (ChatMessage ℕ)) ++
        [⟨"u1", "user", "hello", none⟩,
         ⟨"u2", "assistant", "answer", some ⟨[], []⟩⟩] :=
  c5_sendMessage_appends (fun _ _ _ => Except.ok [])
    (fun _ _ _ => Except.ok "answer") "u1" "u2"
    (fun cid => if cid = "c1" then some ⟨"c1", none, []⟩ else none)
    "c1" "hello" ⟨"c1", none, []⟩ "answer" (by decide) rfl

/-- C9: `sendMessage` is atomic on failure: whenever it returns an error —
conversation missing, generation failure, or the iteration bound — the
conversation store is returned unchanged; in particular the user message is
not appended. -/
theorem c9_sendMessage_atomic_on_failure {σ : Type}
    (queryScenes : String → Option String → ℕ →
      Except SearchErr (List (SearchResultC σ)))
    (genResp : String → List σ → List (ChatMessage σ) → Except ChatErr String)
    (uid1 uid2 : String) (store : ConvStore σ)
    (conversationId userMessage : String) (e : ChatErr)
    (h : (sendMessage queryScenes genResp uid1 uid2 store conversationId
        userMessage).2 = Except.error e) :
    (sendMessage queryScenes genResp uid1 uid2 store conversationId
        userMessage).1 = store := by
  cases hc : store conversationId with
  | none => simp [sendMessage, hc]
  | some conv =>
    cases hg : genResp userMessage
        (retrieveContext queryScenes userMessage conv.campaignId)
        conv.messages with
    | error e' => simp [sendMessage, hc, hg]
    | ok txt => simp [sendMessage, hc, hg] at h

/-- Witness for C9: a store without the conversation fails and is returned
unchanged. -/
theorem c9_sendMessage_atomic_on_failure_witness :
    (sendMessage
        ((fun _ _ _ => Except.ok []) :
          String → Option String → ℕ → Except SearchErr (List (SearchResultC ℕ)))
        (fun _ _ _ => Except.ok "t") "u1" "u2" (fun _ => none) "c1" "hi").1
      = (fun _ => none) :=
  c9_sendMessage_atomic_on_failure (fun _ _ _ => Except.ok [])
    (fun _ _ _ => Except.ok "t") "u1" "u2" (fun _ => none) "c1" "hi"
    ChatErr.conversationNotFound rfl

/-- C8 counterexample: with the language-model backend entirely unavailable
(Vertex AI not initialized) the chat turn does not produce a fallback
assistant message — `sendMessage` returns the raw typed error to its
caller. -/
theorem c8_counterexample :
    (sendMessage
        ((fun _ _ _ => Except.ok []) :
          String → Option String → ℕ → Except SearchErr (List (SearchResultC ℕ)))
        (fun m c h =>
          (generateResponse false (fun _ => ModelResp.text "ok")
            (fun _ _ => Except.ok "r") m c h).2)
        "u1" "u2"
        (fun cid => if cid = "c1" then some ⟨"c1", none, []⟩ else none)
        "c1" "hello").2
      = Except.error ChatErr.vertexNotInitialized := by
  rfl

/-- C8 (amended): on a generation failure — including an unavailable model
backend — `sendMessage` propagates the typed error unchanged to its caller,
the HTTP boundary; no degraded fallback assistant message is produced by the
chat service (only the frontend substitutes apologetic text client-side). -/
theorem c8_sendMessage_propagates_generation_error {σ : Type}
    (queryScenes : String → Option String → ℕ →
      Except SearchErr (List (SearchResultC σ)))
    (genResp : String → List σ → List (ChatMessage σ) → Except ChatErr String)
    (uid1 uid2 : String) (store : ConvStore σ)
    (conversationId userMessage : String) (conv : Conversation σ) (e : ChatErr)
    (hc : store conversationId = some conv)
    (hg : genResp userMessage
        (retrieveContext queryScenes userMessage conv.campaignId)
        conv.messages = Except.error e) :
    (sendMessage queryScenes genResp uid1 uid2 store conversationId
        userMessage).2 = Except.error e := by
  simp [sendMessage, hc, hg]

/-- Witness for C8's amended theorem: a generator failing with a generation
error propagates out of a concrete `sendMessage` call. -/
theorem c8_sendMessage_propagates_generation_error_witness :
    (sendMessage
        ((fun _ _ _ => Except.ok []) :
          String → Option String → ℕ → Except SearchErr (List (SearchResultC ℕ)))
        (fun _ _ _ => Except.error ChatErr.generationFailed) "u1" "u2"
        (fun cid => if cid = "c1" then some ⟨"c1", none, []⟩ else none)
        "c1" "hello").2
      = Except.error ChatErr.generationFailed :=
  c8_sendMessage_propagates_generation_error (fun _ _ _ => Except.ok [])
    (fun _ _ _ => Except.error ChatErr.generationFailed) "u1" "u2"
    (fun cid => if cid = "c1" then some ⟨"c1", none, []⟩ else none)
    "c1" "hello" ⟨"c1", none, []⟩ ChatErr.generationFailed (by decide) rfl

/-- C10: `retrieveContext` is total with respect to retrieval failures: when
the underlying scene search throws, it returns the empty scene list, and a
chat turn on such a conversation still succeeds, proceeding with empty
retrieved context. -/
theorem c10_retrieveContext_total {σ : Type}
    (queryScenes : String → Option String → ℕ →
      Except SearchErr (List (SearchResultC σ)))
    (message : String) (campaignId : Option String) (e : SearchErr)
    (h : queryScenes message campaignId 10 = Except.error e) :
    retrieveContext queryScenes message campaignId = [] ∧
    (∀ (genResp : String → List σ → List (ChatMessage σ) →
        Except ChatErr String)
      (uid1 uid2 : String) (store : ConvStore σ) (conversationId : String)
      (conv : Conversation σ) (txt : String),
      store conversationId = some conv →
      conv.campaignId = campaignId →
      genResp message ([] : List σ) conv.messages = Except.ok txt →
      (sendMessage queryScenes genResp uid1 uid2 store conversationId
          message).2
        = Except.ok (⟨uid2, "assistant", txt, some ⟨([] : List σ), []⟩⟩ :
            ChatMessage σ)) := by
  have hctx : retrieveContext queryScenes message campaignId = [] := by
    simp [retrieveContext, h]
  refine ⟨hctx, ?_⟩
  intro genResp uid1 uid2 store conversationId conv txt hc hcamp hg
  have hctx' : retrieveContext queryScenes message conv.campaignId = [] := by
    rw [hcamp]; exact hctx
  simp [sendMessage, hc, hctx', hg]

/-- Witness for C10: a throwing search yields empty context and a concrete
turn still succeeds with an empty context snapshot. -/
theorem c10_retrieveContext_total_witness :
    retrieveContext
        ((fun _ _ _ => Except.error SearchErr.searchFailed) :
          String → Option String → ℕ → Except SearchErr (List (SearchResultC ℕ)))
        "hi" none = [] ∧
    (sendMessage
        ((fun _ _ _ => Except.error SearchErr.searchFailed) :
          String → Option String → ℕ → Except SearchErr (List (SearchResultC ℕ)))
        (fun _ _ _ => Except.ok "t") "u1" "u2"
        (fun cid => if cid = "c1" then some ⟨"c1", none, []⟩ else none)
        "c1" "hi").2
      = Except.ok (⟨"u2", "assistant", "t", some ⟨[], []⟩⟩ : ChatMessage ℕ) :=
  ⟨(c10_retrieveContext_total (fun _ _ _ => Except.error SearchErr.searchFailed)
      "hi" none SearchErr.searchFailed rfl).1,
   (c10_retrieveContext_total (fun _ _ _ => Except.error SearchErr.searchFailed)
      "hi" none SearchErr.searchFailed rfl).2
     (fun _ _ _ => Except.ok "t") "u1" "u2"
     (fun cid => if cid = "c1" then some ⟨"c1", none, []⟩ else none)
     "c1" ⟨"c1", none, []⟩ "t" (by decide) rfl rfl⟩

/-- Witness for C2: the success hypothesis discharged at a concrete search
over the empty store. -/
theorem c2_searchSimilarEmbeddings_spec_witness :
    searchSimilarEmbeddings [(1 : ℝ)] 5 none 0 [] = Except.ok [] ∧
    ([] : List SimilarityResult).length ≤ 5 ∧
    List.Pairwise simGE ([] : List SimilarityResult) :=
  ⟨rfl,
   (c2_searchSimilarEmbeddings_spec [(1 : ℝ)] 5 none 0 [] [] rfl).1,
   (c2_searchSimilarEmbeddings_spec [(1 : ℝ)] 5 none 0 [] [] rfl).2.1⟩

end Claims
